import Mathlib

/-!
Shallow embedding of the torrent download lifecycle manager in
src/lib/webtorrent-service.ts (class WebTorrentService).

Modelling conventions:
- JavaScript millisecond timestamps (Date.now, Date.getTime) are Nat.
  ISO date strings produced by Date.toISOString are represented by the
  underlying millisecond timestamp, since toISOString is injective on
  timestamps and the code never inspects the string contents.
- JavaScript numbers that the service only copies through (progress,
  downloaded, length, rates, peer counts) are Nat.
- Optional / possibly-undefined fields are Option. The JavaScript
  falsiness of the empty string and of the number 0 is modelled
  explicitly where the code relies on it (x || y patterns).
- Time differences are compared over Int, matching JavaScript signed
  arithmetic (now - t can be negative there).
-/

namespace WebTorrentSvc

/-- Status values of HistoryItem.status in the source. -/
inductive HistoryStatus
  | completed
  | failed
  | removed
  | active
  | error
  | stalled
  deriving DecidableEq, Repr

/-- TorrentProgressStatus values in the source. -/
inductive TorrentProgressStatus
  | idle
  | downloading
  | seeding
  | paused
  | error
  | connecting
  | done
  | metadata
  | stalled
  | no_peers
  deriving DecidableEq, Repr

/-- One file inside a torrent (WebTorrentAPITorrentFile): only the fields
the service reads, a name and a byte length. -/
structure TorrentFile where
  name : String
  length : Nat
  deriving DecidableEq, Repr

/-- The Torrent object: the engine counters the service reads plus the
custom fields the service attaches (customName, addedDate, itemId,
statusForHistory, lastProgressTime, noPeersReason). -/
structure Torrent where
  infoHash : String
  magnetURI : String
  name : String
  customName : Option String := none
  itemId : Option String := none
  addedDate : Option Nat := none
  lastProgressTime : Option Nat := none
  noPeersReason : Option String := none
  statusForHistory : Option HistoryStatus := none
  ready : Bool := false
  done : Bool := false
  paused : Bool := false
  progress : Nat := 0
  downloadSpeed : Nat := 0
  uploadSpeed : Nat := 0
  numPeers : Nat := 0
  timeRemaining : Option Nat := none
  downloaded : Nat := 0
  length : Option Nat := none
  files : List TorrentFile := []
  deriving DecidableEq, Repr

/-- HistoryItem record of the source; addedDate and completedDate are
ISO strings there, modelled by their millisecond timestamps. -/
structure HistoryItem where
  infoHash : String
  magnetURI : String
  name : String
  itemId : Option String := none
  addedDate : Nat
  completedDate : Option Nat := none
  status : HistoryStatus
  size : Option Nat := none
  lastError : Option String := none
  deriving DecidableEq, Repr

/-- The TorrentProgress snapshot returned by getTorrentProgress. -/
structure TorrentProgress where
  torrentId : String
  progress : Nat
  downloadSpeed : Nat
  uploadSpeed : Nat
  peers : Nat
  remainingTime : Option Nat := none
  downloaded : Nat
  length : Option Nat := none
  customName : Option String := none
  addedDate : Option Nat := none
  itemId : Option String := none
  status : TorrentProgressStatus
  noPeersReason : Option String := none
  deriving DecidableEq, Repr

/-- STALL_TIMEOUT constant: 30000 ms. -/
def STALL_TIMEOUT : Int := 30000

/-- NO_PEERS_TIMEOUT constant: 60000 ms. -/
def NO_PEERS_TIMEOUT : Int := 60000

/-- JavaScript x || d over an optional string: undefined and the empty
string are falsy. -/
def jsOrStr (x : Option String) (d : Option String) : Option String :=
  match x with
  | some s => if s = "" then d else some s
  | none => d

/-- JavaScript (torrent.lastProgressTime || now): undefined and 0 are
falsy and give now. -/
def jsOrNat (x : Option Nat) (d : Nat) : Nat :=
  match x with
  | some n => if n = 0 then d else n
  | none => d

/-- Lines 233-240 of the service: the ready / done / paused / downloading
branch of getTorrentProgress, before the stall and no-peers adjustments.
The initial connecting value is immediately overwritten in every branch. -/
def baseStatus (t : Torrent) : TorrentProgressStatus :=
  if t.ready then
    if t.done then
      if t.uploadSpeed > 0 then .seeding else .done
    else if t.paused then .paused
    else .downloading
  else .metadata

/-- Lines 242-249: stall detection and lastProgressTime refresh. Returns the
adjusted status and the possibly mutated torrent. -/
def stallStep (t : Torrent) (status : TorrentProgressStatus) (now : Nat) :
    TorrentProgressStatus × Torrent :=
  if status = .downloading ∧ t.downloadSpeed = 0 ∧ 0 < t.numPeers then
    if (now : Int) - (jsOrNat t.lastProgressTime now : Int) > STALL_TIMEOUT then
      (.stalled, t)
    else
      (status, t)
  else if status = .downloading then
    (status, { t with lastProgressTime := some now })
  else
    (status, t)

/-- Lines 251-254: no-peers detection, overriding any status other than
done and seeding, and setting noPeersReason on the torrent. -/
def noPeersStep (t : Torrent) (status : TorrentProgressStatus) (now : Nat) :
    TorrentProgressStatus × Torrent :=
  if status ≠ .done ∧ status ≠ .seeding ∧ t.numPeers = 0 ∧
      (now : Int) - (t.addedDate.getD 0 : Int) > NO_PEERS_TIMEOUT then
    (.no_peers, { t with noPeersReason := some "No peers found after 60 seconds." })
  else
    (status, t)

/-- getTorrentProgress (lines 232-271): classifies the torrent, mutates
lastProgressTime and noPeersReason on it, and returns the progress
snapshot together with the mutated torrent. Date.now() is the explicit
parameter now. -/
def getTorrentProgress (t : Torrent) (now : Nat) : TorrentProgress × Torrent :=
  let s0 := baseStatus t
  let r1 := stallStep t s0 now
  let r2 := noPeersStep r1.2 r1.1 now
  ({ torrentId := r2.2.infoHash
     progress := r2.2.progress
     downloadSpeed := r2.2.downloadSpeed
     uploadSpeed := r2.2.uploadSpeed
     peers := r2.2.numPeers
     remainingTime := r2.2.timeRemaining
     downloaded := r2.2.downloaded
     length := r2.2.length
     customName := r2.2.customName
     addedDate := r2.2.addedDate
     itemId := r2.2.itemId
     status := r2.1
     noPeersReason := r2.2.noPeersReason }, r2.2)

/-- Updates the first list element satisfying p with f, leaving the rest
unchanged; the identity when no element matches. This is the
findIndex-then-assign pattern of updateHistory. -/
def updateFirst (p : HistoryItem → Bool) (f : HistoryItem → HistoryItem) :
    List HistoryItem → List HistoryItem
  | [] => []
  | x :: xs => if p x then f x :: xs else x :: updateFirst p f xs

/-- updateHistory (lines 154-178) acting on the history list. status and
lastError are the optional call arguments; now stands for the
new Date().toISOString() timestamp taken inside the call. The JavaScript
chain status || torrent.statusForHistory || active has no falsy statuses,
so it is plain Option defaulting. -/
def updateHistory (history : List HistoryItem) (torrent : Torrent)
    (status : Option HistoryStatus) (lastError : Option String) (now : Nat) :
    List HistoryItem :=
  let newStatus := status.getD (torrent.statusForHistory.getD .active)
  if history.any (fun item => item.infoHash = torrent.infoHash) then
    updateFirst (fun item => item.infoHash = torrent.infoHash)
      (fun old =>
        { old with
          status := newStatus
          completedDate := if newStatus = .completed then some now else old.completedDate
          lastError := jsOrStr lastError old.lastError
          size := torrent.length })
      history
  else
    { infoHash := torrent.infoHash
      magnetURI := torrent.magnetURI
      name := (jsOrStr torrent.customName (some torrent.name)).getD torrent.name
      itemId := torrent.itemId
      addedDate := torrent.addedDate.getD now
      status := newStatus
      size := torrent.length
      lastError := lastError } :: history

/-- loadHistory (lines 122-131): localStorage.getItem may return null
(absent key, modelled none) or a string; an empty string is falsy in the
storedHistory test. parse stands for JSON.parse restricted to payloads
that decode to a history list, returning none exactly when JSON.parse
throws or yields garbage; the catch block turns that into the empty
history. The function is total: no fault escapes the load. -/
def loadHistory (storedHistory : Option String)
    (parse : String → Option (List HistoryItem)) : List HistoryItem :=
  match storedHistory with
  | none => []
  | some s => if s = "" then [] else (parse s).getD []

/-- Events emitted by the service, in emission order. -/
inductive Event
  | added (infoHash : String)
  | removedEv (infoHash : String)
  | doneEv (infoHash : String)
  | errorEv (infoHash : String)
  | progressEv (torrentId : String)
  | historyUpdated
  deriving DecidableEq, Repr

/-- Observable state of the service: the client torrent list, the history
list, the emitted events in order, and how many engine transfers were
started (client.add calls that reached the engine). -/
structure ServiceState where
  torrents : List Torrent := []
  history : List HistoryItem := []
  events : List Event := []
  engineStarts : Nat := 0
  deriving DecidableEq, Repr

/-- client.get: looks a torrent up by infoHash or magnet URI among the
active client torrents. -/
def clientGet (torrents : List Torrent) (q : String) : Option Torrent :=
  torrents.find? (fun t => t.infoHash = q || t.magnetURI = q)

/-- Lines 189-193 of addTorrent: the fields the add callback sets on the engine-provided torrent instance (customName, itemId, addedDate, lastProgressTime). -/
def enhance (resolved : Torrent) (itemName : Option String) (itemId : Option String)
    (now : Nat) : Torrent :=
  { resolved with
    customName := itemName
    itemId := itemId
    addedDate := some now
    lastProgressTime := some now }

/-- addTorrent (lines 180-226), successful path. If client.get finds the
magnet URI among active torrents the call returns null and changes
nothing (lines 182-185). Otherwise client.add starts the engine transfer
and, once the add callback fires, the torrent (resolved, the engine
instance for this magnet) gets customName, itemId, addedDate and
lastProgressTime set, history is upserted with status active (saveHistory
emits historyUpdated), the added event is emitted and the promise
resolves with the torrent. now stands for Date.now() inside the callback. -/
def addTorrent (st : ServiceState) (magnetURI : String)
    (itemName : Option String) (itemId : Option String)
    (resolved : Torrent) (now : Nat) : Option Torrent × ServiceState :=
  if (clientGet st.torrents magnetURI).isSome then
    (none, st)
  else
    let t := enhance resolved itemName itemId now
    (some t,
      { torrents := t :: st.torrents
        history := updateHistory st.history t (some .active) none now
        events := st.events ++ [Event.historyUpdated, Event.added t.infoHash]
        engineStarts := st.engineStarts + 1 })

/-- Line 309: torrent.files.reduce with callback a.length > b.length ? a : b.
JavaScript reduce with no initial value faults on an empty list, modelled
as none. -/
def largestFile (files : List TorrentFile) : Option TorrentFile :=
  match files with
  | [] => none
  | f :: fs => some (fs.foldl (fun a b => if a.length > b.length then a else b) f)

/-- getLargestFileForStreaming (lines 305-320): null when the torrent is
unknown or not ready, otherwise the reduce-selected file. The stream URL
is built from an ephemeral server port at runtime and carries no further
selection logic, so the model returns the selected file. -/
def getLargestFileForStreaming (torrents : List Torrent) (q : String) :
    Option TorrentFile :=
  match clientGet torrents q with
  | none => none
  | some t =>
    if t.ready then
      match largestFile t.files with
      | none => none
      | some f => some f
    else none

/-- Modelled from the spec: selects the file with the greatest byte
length, breaking ties by the last file encountered. This is the
spec-side selection function that the source reduce is compared with. -/
def lastMaxFile : List TorrentFile → Option TorrentFile
  | [] => none
  | f :: fs =>
    match lastMaxFile fs with
    | none => some f
    | some g => some (if f.length > g.length then f else g)

/-- Finds the history record for an infoHash: first match, as
history.findIndex does. -/
def histFind (history : List HistoryItem) (h : String) : Option HistoryItem :=
  history.find? (fun item => item.infoHash = h)




/-- Concrete snapshot for claim C2: engine not ready, zero peers, added at time 0. -/
def exC2 : Torrent :=
  { infoHash := "hashC2", magnetURI := "magnetC2", name := "fileC2", ready := false, numPeers := 0, addedDate := some 0 }

/-- C2 counterexample: a not-ready snapshot with zero peers and 61 s elapsed since addedAt is classified no_peers, not metadata, so ready = false does not always yield metadata. -/
theorem classifier_not_ready_counterexample :
    exC2.ready = false ∧ (getTorrentProgress exC2 61000).1.status ≠ .metadata := by
  decide

/-- C2 (amended): for every snapshot with ready = false the classifier returns metadata, unless peerCount = 0 and more than 60 s have elapsed since addedAt, in which case the no-peers override returns no_peers. -/
theorem classifier_not_ready (t : Torrent) (now : Nat) (h : t.ready = false) :
    (getTorrentProgress t now).1.status =
      if t.numPeers = 0 ∧ (now : Int) - (t.addedDate.getD 0 : Int) > NO_PEERS_TIMEOUT
      then .no_peers else .metadata := by
  simp [getTorrentProgress, baseStatus, stallStep, noPeersStep, h]
  split <;> rfl

/-- C2 witness: the amended theorem applied to the concrete not-ready snapshot at 61 s. -/
theorem classifier_not_ready_witness :
    (getTorrentProgress exC2 61000).1.status =
      if exC2.numPeers = 0 ∧ ((61000 : Nat) : Int) - (exC2.addedDate.getD 0 : Int) > NO_PEERS_TIMEOUT
      then .no_peers else .metadata :=
  classifier_not_ready exC2 61000 rfl

/-- Concrete snapshot for claim C3: ready, not done, paused, zero peers, added at time 0. -/
def exC3 : Torrent :=
  { infoHash := "hashC3", magnetURI := "magnetC3", name := "fileC3", ready := true, done := false, paused := true, numPeers := 0, addedDate := some 0 }

/-- C3 counterexample: a paused transfer with zero peers and 61 s since addedAt is classified no_peers, not paused, so the paused branch does not win over the no-peers override. -/
theorem classifier_paused_counterexample :
    (exC3.ready = true ∧ exC3.done = false ∧ exC3.paused = true) ∧
    (getTorrentProgress exC3 61000).1.status ≠ .paused := by
  decide

/-- C3 (amended): for every snapshot with ready = true, done = false and the paused flag set the classifier returns paused, unless peerCount = 0 and more than 60 s have elapsed since addedAt, in which case it returns no_peers. -/
theorem classifier_paused (t : Torrent) (now : Nat)
    (h1 : t.ready = true) (h2 : t.done = false) (h3 : t.paused = true) :
    (getTorrentProgress t now).1.status =
      if t.numPeers = 0 ∧ (now : Int) - (t.addedDate.getD 0 : Int) > NO_PEERS_TIMEOUT
      then .no_peers else .paused := by
  simp [getTorrentProgress, baseStatus, stallStep, noPeersStep, h1, h2, h3]
  split <;> rfl

/-- C3 witness: the amended theorem applied to the concrete paused snapshot at 61 s. -/
theorem classifier_paused_witness :
    (getTorrentProgress exC3 61000).1.status =
      if exC3.numPeers = 0 ∧ ((61000 : Nat) : Int) - (exC3.addedDate.getD 0 : Int) > NO_PEERS_TIMEOUT
      then .no_peers else .paused :=
  classifier_paused exC3 61000 rfl rfl rfl

/-- C4: with ready = true, done = false, paused = false, 3 peers, zero download rate and a nonzero lastProgressTime lp, the classifier returns stalled when now = lp + 31000 ms and downloading when now = lp + 29000 ms: the 30 s stall threshold is strictly exceeded. -/
theorem classifier_stall_threshold (t : Torrent) (lp : Nat)
    (h1 : t.ready = true) (h2 : t.done = false) (h3 : t.paused = false)
    (h4 : t.numPeers = 3) (h5 : t.downloadSpeed = 0)
    (h6 : t.lastProgressTime = some lp) (h7 : 0 < lp) :
    (getTorrentProgress t (lp + 31000)).1.status = .stalled ∧
    (getTorrentProgress t (lp + 29000)).1.status = .downloading := by
  have hlp : lp ≠ 0 := Nat.pos_iff_ne_zero.mp h7
  simp [getTorrentProgress, baseStatus, stallStep, noPeersStep, jsOrNat,
    STALL_TIMEOUT, NO_PEERS_TIMEOUT, h1, h2, h3, h4, h5, h6, hlp]

/-- C4 witness: the stall-threshold theorem applied to a concrete snapshot with lastProgressTime = 1000. -/
theorem classifier_stall_threshold_witness :
    (getTorrentProgress { infoHash := "hashC4", magnetURI := "magnetC4", name := "fileC4", ready := true, numPeers := 3, downloadSpeed := 0, lastProgressTime := some 1000, addedDate := some 0 } (1000 + 31000)).1.status = .stalled ∧
    (getTorrentProgress { infoHash := "hashC4", magnetURI := "magnetC4", name := "fileC4", ready := true, numPeers := 3, downloadSpeed := 0, lastProgressTime := some 1000, addedDate := some 0 } (1000 + 29000)).1.status = .downloading :=
  classifier_stall_threshold _ 1000 rfl rfl rfl rfl rfl rfl (by decide)

/-- C5: with ready = true, done = false, paused = false and zero peers, the classifier returns no_peers with the reason string at now = addedAt + 61000 ms, and does not return no_peers at addedAt + 59000 ms: the 60 s no-peers threshold is strictly exceeded. -/
theorem classifier_no_peers_threshold (t : Torrent) (ad : Nat)
    (h1 : t.ready = true) (h2 : t.done = false) (h3 : t.paused = false)
    (h4 : t.numPeers = 0) (h5 : t.addedDate = some ad) :
    ((getTorrentProgress t (ad + 61000)).1.status = .no_peers ∧
      (getTorrentProgress t (ad + 61000)).1.noPeersReason =
        some "No peers found after 60 seconds.") ∧
    (getTorrentProgress t (ad + 59000)).1.status ≠ .no_peers := by
  simp [getTorrentProgress, baseStatus, stallStep, noPeersStep, jsOrNat,
    STALL_TIMEOUT, NO_PEERS_TIMEOUT, h1, h2, h3, h4, h5]

/-- C5 witness: the no-peers-threshold theorem applied to a concrete snapshot added at time 0. -/
theorem classifier_no_peers_threshold_witness :
    (((getTorrentProgress { infoHash := "hashC5", magnetURI := "magnetC5", name := "fileC5", ready := true, numPeers := 0, addedDate := some 0 } (0 + 61000)).1.status = .no_peers ∧
      (getTorrentProgress { infoHash := "hashC5", magnetURI := "magnetC5", name := "fileC5", ready := true, numPeers := 0, addedDate := some 0 } (0 + 61000)).1.noPeersReason =
        some "No peers found after 60 seconds.") ∧
    (getTorrentProgress { infoHash := "hashC5", magnetURI := "magnetC5", name := "fileC5", ready := true, numPeers := 0, addedDate := some 0 } (0 + 59000)).1.status ≠ .no_peers) :=
  classifier_no_peers_threshold _ 0 rfl rfl rfl rfl rfl


/-- Helper: the torrent returned by stallStep has lastProgressTime refreshed to now exactly when status is downloading and the zero-rate-with-peers guard fails; otherwise the torrent is unchanged. -/
theorem stallStep_snd (t : Torrent) (s : TorrentProgressStatus) (now : Nat) :
    (stallStep t s now).2 =
      if s = .downloading ∧ ¬(t.downloadSpeed = 0 ∧ 0 < t.numPeers)
      then { t with lastProgressTime := some now } else t := by
  unfold stallStep
  split_ifs <;> simp_all

/-- Helper: noPeersStep never changes lastProgressTime. -/
theorem noPeersStep_lastProgress (t : Torrent) (s : TorrentProgressStatus) (now : Nat) :
    (noPeersStep t s now).2.lastProgressTime = t.lastProgressTime := by
  unfold noPeersStep
  split <;> rfl

/-- Concrete snapshot for claim C6: downloading with zero rate and zero peers, lastProgressTime = 5. -/
def exC6 : Torrent :=
  { infoHash := "hashC6", magnetURI := "magnetC6", name := "fileC6", ready := true, downloadSpeed := 0, numPeers := 0, lastProgressTime := some 5, addedDate := some 0 }

/-- C6 counterexample: a tick with downloadRate = 0 (zero peers) still advances lastProgressTime from 5 to now = 2000, so lastProgressTime does not advance only on nonzero-rate ticks. -/
theorem lastProgress_refresh_counterexample :
    exC6.downloadSpeed = 0 ∧ exC6.lastProgressTime = some 5 ∧
    (getTorrentProgress exC6 2000).2.lastProgressTime = some 2000 := by
  decide

/-- C6 (amended): on every classification tick, lastProgressTime is set to now exactly when the base status is downloading and the stall guard (downloadRate = 0 with at least one peer) does not hold; in particular a downloading tick with zero rate and zero peers advances it, while a zero-rate tick with peers present leaves it unchanged. -/
theorem lastProgress_refresh (t : Torrent) (now : Nat) :
    (getTorrentProgress t now).2.lastProgressTime =
      if baseStatus t = .downloading ∧ ¬(t.downloadSpeed = 0 ∧ 0 < t.numPeers)
      then some now else t.lastProgressTime := by
  simp only [getTorrentProgress]
  rw [noPeersStep_lastProgress, stallStep_snd]
  split <;> simp

/-- Helper: updating the first match of p with an f that preserves p commutes with find?. -/
theorem find?_updateFirst (p : HistoryItem → Bool) (f : HistoryItem → HistoryItem)
    (hp : ∀ x, p x = true → p (f x) = true) (l : List HistoryItem) :
    (updateFirst p f l).find? p = (l.find? p).map f := by
  induction l with
  | nil => rfl
  | cons x xs ih =>
    by_cases hx : p x = true
    · rw [updateFirst, if_pos hx, List.find?_cons_of_pos _ (hp x hx),
        List.find?_cons_of_pos _ hx]
      rfl
    · rw [updateFirst, if_neg hx, List.find?_cons_of_neg _ hx,
        List.find?_cons_of_neg _ hx, ih]

/-- C7: upserting onto an existing history record sets completedDate to the current time exactly when the effective new status is completed, and otherwise leaves the stored completedDate untouched. -/
theorem updateHistory_completedDate (history : List HistoryItem) (torrent : Torrent)
    (status : Option HistoryStatus) (lastError : Option String) (now : Nat)
    (old : HistoryItem)
    (hfind : histFind history torrent.infoHash = some old) :
    ∃ upd,
      histFind (updateHistory history torrent status lastError now) torrent.infoHash
        = some upd ∧
      upd.completedDate =
        (if status.getD (torrent.statusForHistory.getD .active) = .completed
         then some now else old.completedDate) ∧
      upd.status = status.getD (torrent.statusForHistory.getD .active) := by
  have hmem := List.mem_of_find?_eq_some hfind
  have hpold := List.find?_some hfind
  have hany : history.any (fun item => item.infoHash = torrent.infoHash) = true :=
    List.any_eq_true.mpr ⟨old, hmem, hpold⟩
  unfold updateHistory histFind
  simp only [hany, if_true]
  rw [find?_updateFirst]
  · rw [show history.find? (fun item => item.infoHash = torrent.infoHash) = some old from hfind]
    exact ⟨_, rfl, rfl, rfl⟩
  · intro x hx
    simpa using hx

/-- C7 witness: upserting active over a completed record keeps completedDate 99, by the theorem at a concrete record. -/
theorem updateHistory_completedDate_witness :
    ∃ upd,
      histFind (updateHistory
        [{ infoHash := "hashC7", magnetURI := "magnetC7", name := "fileC7", addedDate := 10, completedDate := some 99, status := .completed, lastError := some "disk fault" }]
        { infoHash := "hashC7", magnetURI := "magnetC7", name := "fileC7", length := some 42 }
        (some .active) none 500) "hashC7" = some upd ∧
      upd.completedDate =
        (if (some HistoryStatus.active).getD ((none : Option HistoryStatus).getD .active) = .completed
         then some 500
         else ({ infoHash := "hashC7", magnetURI := "magnetC7", name := "fileC7", addedDate := 10, completedDate := some 99, status := .completed, lastError := some "disk fault" } : HistoryItem).completedDate) ∧
      upd.status = (some HistoryStatus.active).getD ((none : Option HistoryStatus).getD .active) :=
  updateHistory_completedDate _ _ (some .active) none 500 _ rfl

/-- C10: an upsert onto an existing history record that passes no new error message preserves the stored lastError unchanged. -/
theorem updateHistory_lastError_preserved (history : List HistoryItem) (torrent : Torrent)
    (status : Option HistoryStatus) (now : Nat) (old : HistoryItem)
    (hfind : histFind history torrent.infoHash = some old) :
    ∃ upd,
      histFind (updateHistory history torrent status none now) torrent.infoHash
        = some upd ∧
      upd.lastError = old.lastError := by
  have hmem := List.mem_of_find?_eq_some hfind
  have hpold := List.find?_some hfind
  have hany : history.any (fun item => item.infoHash = torrent.infoHash) = true :=
    List.any_eq_true.mpr ⟨old, hmem, hpold⟩
  unfold updateHistory histFind
  simp only [hany, if_true]
  rw [find?_updateFirst]
  · rw [show history.find? (fun item => item.infoHash = torrent.infoHash) = some old from hfind]
    exact ⟨_, rfl, rfl⟩
  · intro x hx
    simpa using hx

/-- C10 witness: a completed upsert with no error message keeps the stored lastError, by the theorem at a concrete record. -/
theorem updateHistory_lastError_preserved_witness :
    ∃ upd,
      histFind (updateHistory
        [{ infoHash := "hashCA", magnetURI := "magnetCA", name := "fileCA", addedDate := 10, status := .error, lastError := some "swarm fault" }]
        { infoHash := "hashCA", magnetURI := "magnetCA", name := "fileCA" }
        (some .completed) none 700) "hashCA" = some upd ∧
      upd.lastError = ({ infoHash := "hashCA", magnetURI := "magnetCA", name := "fileCA", addedDate := 10, status := .error, lastError := some "swarm fault" } : HistoryItem).lastError :=
  updateHistory_lastError_preserved _ _ (some .completed) 700 _ rfl

/-- C9: when the persisted payload is absent or fails to parse, loadHistory yields the empty history; the function is total, so no fault escapes the load. -/
theorem loadHistory_fault_tolerant (storedHistory : Option String)
    (parse : String → Option (List HistoryItem))
    (h : ∀ s, storedHistory = some s → parse s = none) :
    loadHistory storedHistory parse = [] := by
  cases storedHistory with
  | none => rfl
  | some s =>
    rw [loadHistory, h s rfl]
    split <;> rfl

/-- C9 witness: a non-parseable blob loads as the empty history, by the theorem at a concrete payload. -/
theorem loadHistory_fault_tolerant_witness :
    loadHistory (some "corrupt non-json payload") (fun _ => none) = [] :=
  loadHistory_fault_tolerant _ _ (fun _ _ => rfl)

/-- Helper: a nonempty file list always has a lastMaxFile. -/
theorem lastMaxFile_eq_none (files : List TorrentFile) (h : lastMaxFile files = none) :
    files = [] := by
  cases files with
  | nil => rfl
  | cons a fs =>
    rw [lastMaxFile] at h
    cases hfs : lastMaxFile fs <;> rw [hfs] at h <;> simp at h

/-- Helper: the file selected by lastMaxFile is one of the files. -/
theorem lastMaxFile_mem (files : List TorrentFile) (f : TorrentFile)
    (h : lastMaxFile files = some f) : f ∈ files := by
  induction files generalizing f with
  | nil => simp [lastMaxFile] at h
  | cons a fs ih =>
    rw [lastMaxFile] at h
    cases hfs : lastMaxFile fs with
    | none =>
      rw [hfs] at h
      simp at h
      simp [h]
    | some g =>
      rw [hfs] at h
      simp at h
      subst h
      split
      · exact List.mem_cons_self a fs
      · exact List.mem_cons_of_mem a (ih g hfs)

/-- Helper: the file selected by lastMaxFile has maximal byte length. -/
theorem lastMaxFile_le (files : List TorrentFile) (f : TorrentFile)
    (h : lastMaxFile files = some f) : ∀ g ∈ files, g.length ≤ f.length := by
  induction files generalizing f with
  | nil => simp [lastMaxFile] at h
  | cons a fs ih =>
    rw [lastMaxFile] at h
    cases hfs : lastMaxFile fs with
    | none =>
      rw [hfs] at h
      simp at h
      rw [lastMaxFile_eq_none fs hfs]
      subst h
      intro g hg
      simp at hg
      rw [hg]
    | some g =>
      rw [hfs] at h
      simp at h
      subst h
      intro x hx
      rcases List.mem_cons.mp hx with hxa | hxfs
      · subst hxa
        split <;> omega
      · have hxg := ih g hfs x hxfs
        split <;> omega

/-- Helper: the source reduce over the tail, seeded with the head, picks the last file of maximal length: it agrees with lastMaxFile of the whole list. -/
theorem foldl_pick_lastMax (fs : List TorrentFile) (a : TorrentFile) :
    fs.foldl (fun x y => if x.length > y.length then x else y) a =
      (match lastMaxFile fs with
       | none => a
       | some g => if a.length > g.length then a else g) := by
  induction fs generalizing a with
  | nil => rfl
  | cons b bs ih =>
    rw [List.foldl_cons, ih, lastMaxFile]
    cases hbs : lastMaxFile bs with
    | none => rfl
    | some g =>
      simp only
      split_ifs <;> first | rfl | omega

/-- Helper: the source reduce equals the spec-side last-max selection. -/
theorem largestFile_eq_lastMaxFile (files : List TorrentFile) :
    largestFile files = lastMaxFile files := by
  cases files with
  | nil => rfl
  | cons f fs =>
    rw [largestFile, foldl_pick_lastMax, lastMaxFile]
    cases hfs : lastMaxFile fs <;> rfl

/-- Concrete torrent for claim C8: ready, two files of equal length 5. -/
def exC8 : Torrent :=
  { infoHash := "hashC8", magnetURI := "magnetC8", name := "torC8", ready := true, files := [{ name := "fileA", length := 5 }, { name := "fileB", length := 5 }] }

/-- C8 counterexample: with two files of equal length the stream selection returns the second file, not the first encountered, so ties are not broken by the first file. -/
theorem getLargestFileForStreaming_counterexample :
    exC8.files = [{ name := "fileA", length := 5 }, { name := "fileB", length := 5 }] ∧
    getLargestFileForStreaming [exC8] "magnetC8" =
      some { name := "fileB", length := 5 } ∧
    ({ name := "fileB", length := 5 } : TorrentFile) ≠ { name := "fileA", length := 5 } := by
  decide

/-- C8 (amended): getLargestFileForStreaming fails with null exactly when the transfer is unknown, its metadata is not ready, or its file list is empty (where the source reduce faults); otherwise it returns the file of greatest byte length, breaking ties by the last file encountered (lastMaxFile). -/
theorem getLargestFileForStreaming_spec (torrents : List Torrent) (q : String) :
    (∀ t, clientGet torrents q = some t → t.ready = true →
      getLargestFileForStreaming torrents q = lastMaxFile t.files ∧
      ∀ f, lastMaxFile t.files = some f →
        f ∈ t.files ∧ ∀ g ∈ t.files, g.length ≤ f.length) ∧
    (clientGet torrents q = none → getLargestFileForStreaming torrents q = none) ∧
    (∀ t, clientGet torrents q = some t → t.ready = false →
      getLargestFileForStreaming torrents q = none) := by
  refine ⟨fun t ht hr => ⟨?_, fun f hf => ⟨lastMaxFile_mem _ _ hf, lastMaxFile_le _ _ hf⟩⟩,
    fun h => ?_, fun t ht hr => ?_⟩
  · rw [getLargestFileForStreaming, ht]
    simp only [hr, if_true, largestFile_eq_lastMaxFile]
    cases lastMaxFile t.files <;> rfl
  · rw [getLargestFileForStreaming, h]
  · rw [getLargestFileForStreaming, ht]
    simp [hr]

/-- C8 witness: the amended theorem applied to the concrete two-file torrent. -/
theorem getLargestFileForStreaming_spec_witness :
    getLargestFileForStreaming [exC8] "magnetC8" = lastMaxFile exC8.files ∧
    ∀ f, lastMaxFile exC8.files = some f →
      f ∈ exC8.files ∧ ∀ g ∈ exC8.files, g.length ≤ f.length :=
  (getLargestFileForStreaming_spec [exC8] "magnetC8").1 exC8 rfl rfl

/-- Concrete state for claim C1: one active torrent with magnet URI magnetC1 and its history record. -/
def exStC1 : ServiceState :=
  { torrents := [{ infoHash := "hashC1", magnetURI := "magnetC1", name := "fileC1" }]
    history := [{ infoHash := "hashC1", magnetURI := "magnetC1", name := "fileC1", addedDate := 1, status := .active }]
    events := []
    engineStarts := 1 }

/-- C1 counterexample: with magnetC1 already in the active set, addTorrent returns none rather than the existing Transfer, so add on a present locator does not return the existing Transfer. -/
theorem addTorrent_existing_counterexample :
    (clientGet exStC1.torrents "magnetC1").isSome = true ∧
    (addTorrent exStC1 "magnetC1" none none
      { infoHash := "hashC1", magnetURI := "magnetC1", name := "fileC1" } 7).1 = none := by
  decide

/-- C1 (amended): for a locator already in the active set, addTorrent returns null and leaves the whole state unchanged: no second engine start, no new HistoryRecord, no event; and calling add twice with the same fresh locator makes the second call return null with the state of the first call unchanged, exactly one HistoryRecord for the transfer, and exactly one engine start. -/
theorem addTorrent_idempotent (st : ServiceState) (L : String)
    (nm1 iid1 nm2 iid2 : Option String) (resolved resolved2 : Torrent) (n1 n2 : Nat) :
    ((clientGet st.torrents L).isSome = true →
      addTorrent st L nm1 iid1 resolved n1 = (none, st)) ∧
    (clientGet st.torrents L = none → resolved.magnetURI = L →
      st.history.countP (fun r => r.infoHash = resolved.infoHash) = 0 →
      addTorrent (addTorrent st L nm1 iid1 resolved n1).2 L nm2 iid2 resolved2 n2 =
        (none, (addTorrent st L nm1 iid1 resolved n1).2) ∧
      (addTorrent st L nm1 iid1 resolved n1).2.history.countP
        (fun r => r.infoHash = resolved.infoHash) = 1 ∧
      (addTorrent st L nm1 iid1 resolved n1).2.engineStarts = st.engineStarts + 1) := by
  constructor
  · intro h
    rw [addTorrent, if_pos h]
  · intro hnone hmag hcount
    have hfalse : (clientGet st.torrents L).isSome = false := by rw [hnone]; rfl
    have h1 : addTorrent st L nm1 iid1 resolved n1 =
        (some (enhance resolved nm1 iid1 n1),
          { torrents := enhance resolved nm1 iid1 n1 :: st.torrents
            history := updateHistory st.history (enhance resolved nm1 iid1 n1)
              (some .active) none n1
            events := st.events ++
              [Event.historyUpdated, Event.added (enhance resolved nm1 iid1 n1).infoHash]
            engineStarts := st.engineStarts + 1 }) := by
      rw [addTorrent, if_neg (by rw [hfalse]; exact Bool.false_ne_true)]
    have hget : clientGet (enhance resolved nm1 iid1 n1 :: st.torrents) L =
        some (enhance resolved nm1 iid1 n1) := by
      rw [clientGet]
      apply List.find?_cons_of_pos
      simp [enhance, hmag]
    have hanyfalse :
        st.history.any (fun item => item.infoHash = (enhance resolved nm1 iid1 n1).infoHash)
          = false := by
      rw [List.any_eq_false]
      intro x hx
      have hnx := (List.countP_eq_zero.mp hcount) x hx
      simpa [enhance] using hnx
    have hanyfalse2 :
        ¬ (st.history.any (fun item => item.infoHash = (enhance resolved nm1 iid1 n1).infoHash)
          = true) := by
      rw [hanyfalse]
      exact Bool.false_ne_true
    have hcp : (updateHistory st.history (enhance resolved nm1 iid1 n1)
        (some .active) none n1).countP (fun r => r.infoHash = resolved.infoHash) = 1 := by
      rw [updateHistory, if_neg hanyfalse2, List.countP_cons, hcount]
      simp [enhance]
    refine ⟨?_, ?_, ?_⟩
    · rw [h1]
      rw [addTorrent, if_pos (by rw [hget]; rfl)]
    · rw [h1]
      exact hcp
    · rw [h1]

/-- Concrete fresh torrent for the C1 witness. -/
def exW1 : Torrent := { infoHash := "hashW1", magnetURI := "magnetW1", name := "fileW1" }

/-- C1 witness: the amended theorem applied twice at concrete inputs: on a state already holding magnetC1 the call returns null with the state unchanged, and from the empty state a double add of magnetW1 makes the second call a no-op with exactly one history record and one engine start. -/
theorem addTorrent_idempotent_witness :
    (addTorrent exStC1 "magnetC1" none none exW1 7 = (none, exStC1)) ∧
    (addTorrent (addTorrent {} "magnetW1" none none exW1 3).2 "magnetW1" none none exW1 9 =
        (none, (addTorrent {} "magnetW1" none none exW1 3).2) ∧
      (addTorrent {} "magnetW1" none none exW1 3).2.history.countP
        (fun r => r.infoHash = exW1.infoHash) = 1 ∧
      (addTorrent {} "magnetW1" none none exW1 3).2.engineStarts =
        ({} : ServiceState).engineStarts + 1) :=
  ⟨(addTorrent_idempotent exStC1 "magnetC1" none none none none exW1 exW1 7 7).1 rfl,
    (addTorrent_idempotent {} "magnetW1" none none none none exW1 exW1 3 9).2 rfl rfl rfl⟩

end WebTorrentSvc
